import Mathlib

/-!
Shallow embedding of the xamla_motion client library core
(joint trajectory points, joint limits, motion operation builders),
translated from the Python sources:
  * src/xamla_motion/data_types/joint_trajectory_point.py
  * src/xamla_motion/motion_operations.py
  * xamla_motion/types/JointLimits.py
Floating point values are modelled by rationals; `datetime.timedelta`
values are modelled by their exact total number of microseconds (an
integer), which is the resolution Python's timedelta actually has.
-/

namespace XamlaMotion

/-- A joint set paired with one scalar per joint.
Mirrors the `JointValues` data type (joint_set, values).  The Python
invariant `len(values) == joint_set.count()` is stated as a hypothesis
where theorems need it. -/
structure JointValues where
  jointSet : List String
  values : List ℚ
deriving Repr, DecidableEq

/-- Modelled from the spec: the `JointValues.merge` implementation is not
among the provided sources (only its callers are).  Per the spec, merging
joint values "concatenates joint sets field-by-field" / "values are simply
concatenated per joint set union" for disjoint joint sets, which is the
case exercised by `JointTrajectoryPoint.merge`. -/
def JointValues.merge (a b : JointValues) : JointValues :=
  ⟨a.jointSet ++ b.jointSet, a.values ++ b.values⟩

/-- One time-stamped trajectory sample, from `JointTrajectoryPoint.__init__`:
`time_from_start` (timedelta, here: total microseconds), required
`positions`, optional `velocities` / `accelerations` / `efforts`. -/
structure JointTrajectoryPoint where
  time_from_start : ℤ
  positions : JointValues
  velocities : Option JointValues
  accelerations : Option JointValues
  efforts : Option JointValues
deriving Repr, DecidableEq

/-- The `joint_set` property: `positions.joint_set`. -/
def JointTrajectoryPoint.joint_set (p : JointTrajectoryPoint) : List String :=
  p.positions.jointSet

/-! ## Duration wire conversion (to/from ros message)

`to_joint_trajectory_point_msg` emits
  `secs  = days * 24*3600 + seconds`
  `nsecs = microseconds * 1000`
where (days, seconds, microseconds) is Python's normalized timedelta
representation (`0 ≤ seconds < 86400`, `0 ≤ microseconds < 10^6`).
`from_joint_trajectory_point_msg` rebuilds
  `days = secs // (24*3600)`, `seconds = secs % (24*3600)`,
  `microseconds = nsecs // 1000`.
Python's `//` and `%` on a positive divisor coincide with `ℤ`'s `/` and
`%` (Euclidean = floor division for positive divisors). -/

/-- The (secs, nsecs) pair stored in `msg.time_from_start`. -/
structure DurationMsg where
  secs : ℤ
  nsecs : ℤ
deriving Repr, DecidableEq

/-- Normalized timedelta components of a duration of `us` microseconds,
as Python's timedelta stores them (days may be negative, seconds and
microseconds are non-negative remainders). -/
def timedeltaDays (us : ℤ) : ℤ := us / 86400000000

def timedeltaSeconds (us : ℤ) : ℤ := us % 86400000000 / 1000000

def timedeltaMicroseconds (us : ℤ) : ℤ := us % 86400000000 % 1000000

/-- Translation of `to_joint_trajectory_point_msg`, time leg (lines
454-457 of joint_trajectory_point.py). -/
def toDurationMsg (us : ℤ) : DurationMsg :=
  ⟨timedeltaDays us * 86400 + timedeltaSeconds us,
   timedeltaMicroseconds us * 1000⟩

/-- Translation of `from_joint_trajectory_point_msg`, time leg (lines
148-153): rebuilds the timedelta from the (secs, nsecs) pair; the result
is its total number of microseconds. -/
def fromDurationMsg (m : DurationMsg) : ℤ :=
  let days := m.secs / 86400
  let seconds := m.secs % 86400
  let microseconds := m.nsecs / 1000
  (days * 86400 + seconds) * 1000000 + microseconds

/-! ## JointTrajectoryPoint.merge (single-other branch)

Translated from lines 295-324 and 360-361 of joint_trajectory_point.py.
The local variable shadowing below is deliberate: the Python source
assigns the velocity merge, the acceleration merge AND the effort merge
all to the same local variable `velocites`, leaving the locals
`accelerations` and `efforts` at `None`. -/

inductive MergeError where
  | timeMismatch
  | fieldConflict (field : String)
deriving Repr, DecidableEq

/-- Translation of `check_values(a, b, name)` (lines 295-305) fused with
the guarded assignment it controls: fails when exactly one side defines
the field; when both define it, the assignment target becomes the merge
of the two; when neither does, the target keeps its previous value. -/
def checkValuesAssign (a b : Option JointValues) (name : String)
    (prev : Option JointValues) : Except MergeError (Option JointValues) :=
  match a, b with
  | none, none => .ok prev
  | none, some _ => .error (.fieldConflict name)
  | some _, none => .error (.fieldConflict name)
  | some x, some y => .ok (some (x.merge y))

/-- Translation of `JointTrajectoryPoint.merge` with a single
`JointTrajectoryPoint` argument (the `isinstance(others,
JointTrajectoryPoint)` branch, lines 307-324, and the final construction
at lines 360-361).  The shadowing of `velocites` below is deliberate: the
Python source assigns the velocity merge, the acceleration merge AND the
effort merge all to the same local variable `velocites`, so the locals
`accelerations` and `efforts` stay `None`. -/
def JointTrajectoryPoint.merge (self others : JointTrajectoryPoint) :
    Except MergeError JointTrajectoryPoint := do
  let velocites : Option JointValues := none
  let accelerations : Option JointValues := none
  let efforts : Option JointValues := none
  if self.time_from_start ≠ others.time_from_start then
    throw .timeMismatch
  else
    let positions := self.positions.merge others.positions
    let velocites ←
      checkValuesAssign self.velocities others.velocities "velocities"
        velocites
    let velocites ←
      checkValuesAssign self.accelerations others.accelerations
        "accelerations" velocites
    let velocites ←
      checkValuesAssign self.efforts others.efforts "efforts" velocites
    pure ⟨self.time_from_start, positions, velocites, accelerations, efforts⟩

/-! ## JointTrajectoryPoint.interpolate_cubic

Translated from lines 363-429 of joint_trajectory_point.py.  All three
failure modes raise `ValueError` in Python; the inductive below records
which of the three raises fired.  Query and endpoint times are timedelta
values, i.e. exact integer microsecond counts; `total_seconds()` is exact
division by 10^6 in ℚ, and the literal `1e-6` is 1/10^6. -/

inductive InterpError where
  | jointSetMismatch
  | nonMonotonicTime
  | missingVelocity
deriving Repr, DecidableEq

/-- Per-joint cubic Hermite position evaluation from the loop body
(lines 421-424): coefficients `c`, `d` solved from the boundary
conditions, evaluated at clamped offset `t`. -/
def hermitePos (dt t p0 p1 v0 v1 : ℚ) : ℚ :=
  let c := (-3*p0 + 3*p1 - 2*dt*v0 - dt*v1) / dt^2
  let d := (2*p0 - 2*p1 + dt*v0 + dt*v1) / dt^3
  p0 + v0*t + c*t^2 + d*t^3

/-- Per-joint cubic Hermite velocity evaluation from the loop body
(lines 421-425). -/
def hermiteVel (dt t p0 p1 v0 v1 : ℚ) : ℚ :=
  let c := (-3*p0 + 3*p1 - 2*dt*v0 - dt*v1) / dt^2
  let d := (2*p0 - 2*p1 + dt*v0 + dt*v1) / dt^3
  v0 + 2*c*t + 3*d*t^2

/-- Four-way zip, mirroring Python's `zip(...)` over four sequences
(stops at the shortest). -/
def zip4 {α β γ δ : Type} :
    List α → List β → List γ → List δ → List (α × β × γ × δ)
  | a :: as, b :: bs, c :: cs, d :: ds => (a, b, c, d) :: zip4 as bs cs ds
  | _, _, _, _ => []

/-- Translation of `JointTrajectoryPoint.interpolate_cubic`
(lines 363-429).  Faithful details:
  * the degenerate branch (`delta_t.total_seconds() < 1e-6`) returns
    `other`'s full state stamped at `t0 + delta_t`;
  * the query offset is clamped to `[0, dt]` before the missing-velocity
    check;
  * the result arrays start as `np.zeros(len(positions))` /
    `np.zeros(len(velocities))` and only the zipped prefix is filled;
  * the result is stamped with the raw query `time` and carries no
    accelerations or efforts. -/
def JointTrajectoryPoint.interpolate_cubic
    (self other : JointTrajectoryPoint) (time : ℤ) :
    Except InterpError JointTrajectoryPoint :=
  if self.joint_set ≠ other.joint_set then
    .error .jointSetMismatch
  else
    let t0 := self.time_from_start
    let t1 := other.time_from_start
    if t1 ≤ t0 then
      .error .nonMonotonicTime
    else
      let delta_us := t1 - t0
      if (delta_us : ℚ) / 1000000 < 1 / 1000000 then
        .ok ⟨t0 + delta_us, other.positions, other.velocities,
             other.accelerations, other.efforts⟩
      else
        let t : ℚ :=
          min ((delta_us : ℚ) / 1000000)
            (max (((time - t0 : ℤ) : ℚ) / 1000000) 0)
        match self.velocities, other.velocities with
        | some v0s, some v1s =>
          let dt : ℚ := (delta_us : ℚ) / 1000000
          let quad := zip4 self.positions.values other.positions.values
            v0s.values v1s.values
          let pos := quad.map (fun q => hermitePos dt t q.1 q.2.1 q.2.2.1 q.2.2.2)
            ++ List.replicate (self.positions.values.length - quad.length) 0
          let vel := quad.map (fun q => hermiteVel dt t q.1 q.2.1 q.2.2.1 q.2.2.2)
            ++ List.replicate (v0s.values.length - quad.length) 0
          .ok ⟨time, ⟨self.joint_set, pos⟩, some ⟨self.joint_set, vel⟩,
               none, none⟩
        | _, _ => .error .missingVelocity

/-! ## JointLimits (xamla_motion/types/JointLimits.py)

The constructor accepts, per limit array, either a scalar or a sequence.
The Python control flow (lines 86-104, repeated for each array) is:
  * `len(arg)` raises `TypeError` for a scalar: caught, the argument
    becomes `[arg] * count` (broadcast);
  * `len(arg) <= 1` raises `ValueError('max one value is provided')`:
    caught, the argument becomes `arg * count` (list repetition);
  * then `len(arg) != joint_set.count()` raises the length-mismatch
    `ValueError`. -/

inductive LimitArg where
  | scalar (v : ℚ)
  | seq (l : List ℚ)
deriving Repr, DecidableEq

/-- Translation of one per-array block of `JointLimits.__init__`
(lines 87-104): broadcast a scalar, repeat a length-`≤ 1` list, then
check the length against the joint count. -/
def normalizeLimitArg (count : ℕ) : LimitArg → Except String (List ℚ)
  | .scalar v =>
      let l := List.replicate count v
      if l.length ≠ count then .error "length mismatch" else .ok l
  | .seq l =>
      let l := if l.length ≤ 1 then (List.replicate count l).flatten else l
      if l.length ≠ count then .error "length mismatch" else .ok l

structure JointLimits where
  joint_set : List String
  max_velocity : List ℚ
  max_acceleration : List ℚ
  min_position : List ℚ
  max_position : List ℚ
deriving Repr, DecidableEq

/-- Translation of `JointLimits.__init__` (lines 40-170): normalizes the
four limit arrays in source order against the joint count; the first
failure propagates. -/
def JointLimits.init (joint_set : List String)
    (max_velocity max_acceleration min_position max_position : LimitArg) :
    Except String JointLimits := do
  let mv ← normalizeLimitArg joint_set.length max_velocity
  let ma ← normalizeLimitArg joint_set.length max_acceleration
  let mnp ← normalizeLimitArg joint_set.length min_position
  let mxp ← normalizeLimitArg joint_set.length max_position
  pure ⟨joint_set, mv, ma, mnp, mxp⟩

/-- Modelled from the spec: the `JointSet` source file is not among the
provided sources.  Per the spec, `index_of(name)` returns the position of
`name` in the ordered joint set and fails when the name is absent (the
`ValueError` handler in `JointLimits.select` catches that failure). -/
def get_index_of (joint_set : List String) (name : String) : Option ℕ :=
  match joint_set with
  | [] => none
  | n :: rest =>
      if n = name then some 0 else (get_index_of rest name).map (· + 1)

/-- The selection loop of `JointLimits.select` (lines 229-234): looks up
each requested name in turn; the first failed lookup aborts (the
`ValueError` of `get_index_of` propagates to the handler). -/
def lookupIndices (joint_set : List String) : List String → Option (List ℕ)
  | [] => some []
  | n :: rest =>
      match get_index_of joint_set n with
      | none => none
      | some i => (lookupIndices joint_set rest).map (fun is => i :: is)

/-- Argument shape of `JointLimits.select`: a single string or a list of
strings. -/
inductive SelectArg where
  | str (s : String)
  | strList (l : List String)
deriving Repr, DecidableEq

/-- Translation of `JointLimits.select` (lines 197-242).  Faithful
details:
  * `names = (names)` (line 221) is a parenthesized expression, NOT a
    tuple, so a string argument stays a string;
  * `for name in names` then iterates a string character by character,
    each character being looked up as a joint name;
  * an empty argument is falsy and takes the `TypeError` branch;
  * a failed lookup is re-raised as `ValueError('joint name ... not
    exist in joint names')`;
  * the selected arrays are passed to the constructor together with the
    selected names. -/
def JointLimits.select (jl : JointLimits) (names : SelectArg) :
    Except String JointLimits :=
  let nameList : List String :=
    match names with
    | .str s => s.toList.map (fun c => String.mk [c])
    | .strList l => l
  if nameList.isEmpty then .error "TypeError"
  else
    match lookupIndices jl.joint_set nameList with
    | none => .error "ValueError"
    | some idxs =>
        let mv := idxs.map (fun i => jl.max_velocity.getD i 0)
        let ma := idxs.map (fun i => jl.max_acceleration.getD i 0)
        let mnp := idxs.map (fun i => jl.min_position.getD i 0)
        let mxp := idxs.map (fun i => jl.max_position.getD i 0)
        JointLimits.init nameList (.seq mv) (.seq ma) (.seq mnp) (.seq mxp)

/-! ## Motion operation builders (motion_operations.py)

The configuration snapshot held by an operation instance, restricted to
the scalar planning knobs the `with_*` setters touch; the opaque
references carried through unchanged by `to_args()` / rebuild
(move_group, start, target, end_effector, seed) are not modelled.  A
`with_*` call either returns `self` (Python `return self`), a freshly
constructed instance (args round-trip through `to_args()` → mutate →
`_build`), or `None` (the method body falls through without a
`return`). -/

inductive FluentResult (α : Type) where
  | self
  | new (op : α)
  | pyNone
deriving Repr, DecidableEq

structure MoveJointsOperation where
  velocity_scaling : ℚ
  acceleration_scaling : ℚ
  collision_check : Bool
  sample_resolution : ℚ
  max_deviation : ℚ
deriving Repr, DecidableEq

structure MoveCartesianOperation where
  velocity_scaling : ℚ
  acceleration_scaling : ℚ
  collision_check : Bool
  sample_resolution : ℚ
  max_deviation : ℚ
  ik_jump_threshold : ℚ
deriving Repr, DecidableEq

/-- Translation of `MoveOperation.with_velocity_scaling` (lines 357-365)
as inherited by `MoveJointsOperation` (line 509 delegates to super):
rebuild via args round-trip when the value differs, else `return
self`. -/
def MoveJointsOperation.with_velocity_scaling (op : MoveJointsOperation)
    (value : ℚ) : FluentResult MoveJointsOperation :=
  if value ≠ op.velocity_scaling then
    .new {op with velocity_scaling := value}
  else
    .self

/-- Translation of `MoveOperation.with_acceleration_scaling`
(lines 367-375) as inherited by `MoveJointsOperation` (line 533). -/
def MoveJointsOperation.with_acceleration_scaling (op : MoveJointsOperation)
    (value : ℚ) : FluentResult MoveJointsOperation :=
  if value ≠ op.acceleration_scaling then
    .new {op with acceleration_scaling := value}
  else
    .self

/-- Translation of `MoveOperation.with_collision_check` (lines 349-355)
as inherited by `MoveJointsOperation` (line 556): when the value equals
the current flag the body has no `else` branch and no final `return`, so
Python returns `None`. -/
def MoveJointsOperation.with_collision_check (op : MoveJointsOperation)
    (value : Bool) : FluentResult MoveJointsOperation :=
  if value ≠ op.collision_check then
    .new {op with collision_check := value}
  else
    .pyNone

/-- Translation of `MoveOperation.with_acceleration_scaling`
(lines 367-375) as inherited by `MoveCartesianOperation` (line 921). -/
def MoveCartesianOperation.with_acceleration_scaling
    (op : MoveCartesianOperation) (value : ℚ) :
    FluentResult MoveCartesianOperation :=
  if value ≠ op.acceleration_scaling then
    .new {op with acceleration_scaling := value}
  else
    .self

/-- Translation of `MoveCartesianOperation.with_velocity_scaling`
(lines 875-897): despite its docstring, the body delegates to
`super().with_acceleration_scaling(velocity_scaling)` (line 897), so the
velocity scaling value is compared against and written into the
ACCELERATION scaling slot. -/
def MoveCartesianOperation.with_velocity_scaling
    (op : MoveCartesianOperation) (value : ℚ) :
    FluentResult MoveCartesianOperation :=
  op.with_acceleration_scaling value

/-- Translation of `MoveOperation.with_collision_check` (lines 349-355)
as inherited by `MoveCartesianOperation` (line 944). -/
def MoveCartesianOperation.with_collision_check (op : MoveCartesianOperation)
    (value : Bool) : FluentResult MoveCartesianOperation :=
  if value ≠ op.collision_check then
    .new {op with collision_check := value}
  else
    .pyNone

/-! ## IK jump-threshold check in MoveCartesianOperation.plan

Lines 793-802 of motion_operations.py (textually repeated at lines
1155-1164 in `MoveCartesianCollisionFreeOperation.plan`):
```
p_p = path[0].values
for i, p in enumerate(path[1:]):
    delta = np.max(np.abs(p.values - p_p))
    if delta > ik_jump_threshold:
        raise RuntimeError(...delta... index {i} ...threshold...)
```
`p_p` is bound once, before the loop, and never reassigned inside it. -/

/-- Maximum entry of a non-empty list, as `np.max` computes it (`np.max`
raises on an empty array; joint paths have at least one joint, so the
empty default 0 is never exercised by the theorems below). -/
def npMax : List ℚ → ℚ
  | [] => 0
  | x :: xs => xs.foldl max x

/-- Value of `np.max(np.abs(p - p_p))`: elementwise absolute difference,
then maximum. -/
def maxAbsDiff (p p_p : List ℚ) : ℚ :=
  npMax (List.zipWith (fun a b => |a - b|) p p_p)

/-- The loop of the jump check: returns the `(i, delta)` of the first
raise, or `none` when the loop completes.  `p_p` stays fixed, exactly as
in the source. -/
def ikJumpScan (ik_jump_threshold : ℚ) (p_p : List ℚ) (i : ℕ) :
    List (List ℚ) → Option (ℕ × ℚ)
  | [] => none
  | p :: rest =>
      let delta := maxAbsDiff p p_p
      if delta > ik_jump_threshold then some (i, delta)
      else ikJumpScan ik_jump_threshold p_p (i + 1) rest

/-- The whole jump-threshold validation of
`MoveCartesianOperation.plan` / `MoveCartesianCollisionFreeOperation.plan`
over the resolved joint path (each entry is one IK solution's values):
`some (i, delta)` means `plan()` raises naming index `i`, delta and the
threshold; `none` means the check passes and planning proceeds. -/
def ikJumpCheck (ik_jump_threshold : ℚ) (path : List (List ℚ)) :
    Option (ℕ × ℚ) :=
  match path with
  | [] => none
  | p0 :: rest => ikJumpScan ik_jump_threshold p0 0 rest

/-- Restatement of the claim's wording, for comparison with the code:
some ADJACENT pair of the path differs by more than the threshold in the
maximum absolute per-joint delta. -/
def specHasConsecutiveJump (ik_jump_threshold : ℚ)
    (path : List (List ℚ)) : Bool :=
  (path.zip path.tail).any (fun q => maxAbsDiff q.2 q.1 > ik_jump_threshold)

end XamlaMotion

namespace XamlaMotion

/-- Helper: the duration wire conversion round-trips on every exact
microsecond count. -/
theorem duration_roundtrip_aux (us : ℤ) :
    fromDurationMsg (toDurationMsg us) = us := by
  simp only [fromDurationMsg, toDurationMsg, timedeltaDays,
    timedeltaSeconds, timedeltaMicroseconds]
  omega

/-- Claim C7: converting a JointTrajectoryPoint's `time_from_start` to
the (seconds, nanoseconds) wire representation and reconstructing with
`from_joint_trajectory_point_msg` yields exactly the same duration, and
the emitted nanoseconds are a whole multiple of 1000. -/
theorem duration_msg_roundtrip (p : JointTrajectoryPoint) :
    fromDurationMsg (toDurationMsg p.time_from_start) = p.time_from_start ∧
    (toDurationMsg p.time_from_start).nsecs % 1000 = 0 := by
  refine ⟨duration_roundtrip_aux _, ?_⟩
  simp only [toDurationMsg, timedeltaMicroseconds]
  omega

/-- Claim C2 (code bug evaluated at the failing input): merging two
points with equal `time_from_start` that both define velocities,
accelerations and efforts returns a point whose velocities slot holds
the merged EFFORTS, and whose accelerations and efforts are absent: the
source assigns all three field merges to the same local `velocites`. -/
theorem merge_single_misassigns_fields :
    JointTrajectoryPoint.merge
      ⟨0, ⟨["a1"], [1]⟩, some ⟨["a1"], [2]⟩, some ⟨["a1"], [3]⟩,
       some ⟨["a1"], [4]⟩⟩
      ⟨0, ⟨["b1"], [5]⟩, some ⟨["b1"], [6]⟩, some ⟨["b1"], [7]⟩,
       some ⟨["b1"], [8]⟩⟩ =
    .ok ⟨0, ⟨["a1", "b1"], [1, 5]⟩, some ⟨["a1", "b1"], [4, 8]⟩,
         none, none⟩ := by
  rfl

/-- Claim C9: calling `with_collision_check` with a value equal to the
operation's current collision_check flag returns Python `None` (the
method body has no `else` branch), for both modelled concrete operation
families. -/
theorem with_collision_check_no_change_returns_none
    (oj : MoveJointsOperation) (oc : MoveCartesianOperation) (v w : Bool)
    (hv : v = oj.collision_check) (hw : w = oc.collision_check) :
    oj.with_collision_check v = .pyNone ∧
    oc.with_collision_check w = .pyNone := by
  constructor
  · simp [MoveJointsOperation.with_collision_check, hv]
  · simp [MoveCartesianOperation.with_collision_check, hw]

theorem with_collision_check_no_change_returns_none_witness :
    true = (MoveJointsOperation.mk 1 1 true 1 0).collision_check ∧
    false = (MoveCartesianOperation.mk 1 1 false 1 0 1).collision_check ∧
    ((MoveJointsOperation.mk 1 1 true 1 0).with_collision_check true
        = .pyNone ∧
     (MoveCartesianOperation.mk 1 1 false 1 0 1).with_collision_check false
        = .pyNone) :=
  ⟨rfl, rfl,
   with_collision_check_no_change_returns_none
     (MoveJointsOperation.mk 1 1 true 1 0)
     (MoveCartesianOperation.mk 1 1 false 1 0 1) true false rfl rfl⟩

/-- Claim C3 (code bug evaluated at the failing input):
`MoveCartesianOperation.with_velocity_scaling` delegates to
`with_acceleration_scaling`, so on an operation with velocity_scaling 1
and acceleration_scaling 1/2, requesting velocity scaling 1/2 returns
`self` (no new instance and no change at all), and requesting 1/4
returns a rebuilt instance whose velocity_scaling is STILL 1 while its
acceleration_scaling became 1/4. -/
theorem cartesian_with_velocity_scaling_bug :
    (MoveCartesianOperation.mk 1 (1/2) true 1 0 1).with_velocity_scaling
      (1/2) = .self ∧
    (MoveCartesianOperation.mk 1 (1/2) true 1 0 1).with_velocity_scaling
      (1/4) = .new (MoveCartesianOperation.mk 1 (1/4) true 1 0 1) := by
  constructor <;>
    norm_num [MoveCartesianOperation.with_velocity_scaling,
      MoveCartesianOperation.with_acceleration_scaling]

/-- Claim C1 (code bug evaluated at the failing input): on the
single-joint path `[0], [4], [-4]` with `ik_jump_threshold = 5`, the
adjacent pair `(4, -4)` jumps by 8 > 5, yet the check performed by
`plan()` raises no error, because `p_p` is never reassigned and every
point is compared against `path[0]` instead of its immediate
predecessor. -/
theorem ik_jump_check_misses_consecutive_jump :
    specHasConsecutiveJump 5 [[0], [4], [-4]] = true ∧
    ikJumpCheck 5 [[0], [4], [-4]] = none := by
  constructor <;>
    norm_num [specHasConsecutiveJump, ikJumpCheck, ikJumpScan, maxAbsDiff,
      npMax]

/-- Claim C8 counterexample: a sequence argument whose length (1) differs
from the joint count (3) does NOT fail the constructor — the
`ValueError('max one value is provided')` raised for a length-`≤ 1` list
is caught and the list is broadcast by repetition. -/
theorem jointlimits_singleton_seq_broadcasts :
    JointLimits.init ["j1", "j2", "j3"] (.seq [2]) (.scalar 1) (.scalar 0)
      (.scalar 1) =
    .ok ⟨["j1", "j2", "j3"], [2, 2, 2], [1, 1, 1], [0, 0, 0], [1, 1, 1]⟩ := by
  rfl

/-- Claim C8 amended: the constructor broadcasts a scalar limit argument
to every joint, and fails with the length-mismatch ValueError for every
sequence argument of length at least 2 whose length differs from the
joint count (a sequence of length ≤ 1 is instead broadcast by list
repetition). -/
theorem jointlimits_scalar_broadcast_and_length_mismatch
    (js : List String) (v a b c : ℚ) (l : List ℚ)
    (h2 : 2 ≤ l.length) (hne : l.length ≠ js.length) :
    JointLimits.init js (.scalar v) (.scalar a) (.scalar b) (.scalar c) =
      .ok ⟨js, List.replicate js.length v, List.replicate js.length a,
           List.replicate js.length b, List.replicate js.length c⟩ ∧
    JointLimits.init js (.seq l) (.scalar a) (.scalar b) (.scalar c) =
      .error "length mismatch" := by
  constructor
  · simp [JointLimits.init, normalizeLimitArg, Bind.bind, Except.bind,
      Pure.pure, Except.pure]
  · have hgt : ¬(l.length ≤ 1) := by omega
    simp [JointLimits.init, normalizeLimitArg, hgt, hne, Bind.bind,
      Except.bind]

theorem jointlimits_scalar_broadcast_and_length_mismatch_witness :
    2 ≤ ([1, 2] : List ℚ).length ∧
    ([1, 2] : List ℚ).length ≠ (["j1", "j2", "j3"] : List String).length ∧
    (JointLimits.init ["j1", "j2", "j3"] (.scalar 2) (.scalar 1) (.scalar 0)
        (.scalar 3) =
      .ok ⟨["j1", "j2", "j3"], List.replicate 3 2, List.replicate 3 1,
           List.replicate 3 0, List.replicate 3 3⟩ ∧
     JointLimits.init ["j1", "j2", "j3"] (.seq [1, 2]) (.scalar 1)
        (.scalar 0) (.scalar 3) = .error "length mismatch") :=
  ⟨by decide, by decide,
   jointlimits_scalar_broadcast_and_length_mismatch ["j1", "j2", "j3"]
     2 1 0 3 [1, 2] (by decide) (by decide)⟩

/-- Helper: a name absent from the joint set has no index. -/
theorem get_index_of_eq_none (js : List String) (name : String)
    (h : name ∉ js) : get_index_of js name = none := by
  induction js with
  | nil => rfl
  | cons n rest ih =>
    have h1 : ¬(n = name) := by
      intro e
      exact h (by rw [← e]; exact List.mem_cons_self n rest)
    have h2 : name ∉ rest := fun m => h (List.mem_cons_of_mem _ m)
    simp only [get_index_of, if_neg h1, ih h2, Option.map_none']

/-- Claim C10: on a JointLimits whose joint names all have more than one
character, `select` called with a single string raises ValueError even
when that string is a joint name of the set: the parenthesized
reassignment keeps it a bare string, which is then iterated character by
character, and each single-character lookup fails. -/
theorem select_single_string_raises (jl : JointLimits) (name : String)
    (hlong : ∀ n ∈ jl.joint_set, 1 < n.length)
    (hmem : name ∈ jl.joint_set) :
    jl.select (.str name) = .error "ValueError" := by
  have hn2 : 1 < name.length := hlong name hmem
  obtain ⟨c, cs, hc⟩ : ∃ c cs, name.toList = c :: cs := by
    cases h : name.toList with
    | nil =>
      exfalso
      have hlen : name.length = name.toList.length := rfl
      rw [h] at hlen
      simp at hlen
      omega
    | cons c cs => exact ⟨c, cs, rfl⟩
  have hnone : get_index_of jl.joint_set (String.mk [c]) = none := by
    apply get_index_of_eq_none
    intro hmem'
    have hl := hlong _ hmem'
    have h1 : (String.mk [c]).length = 1 := rfl
    omega
  simp only [JointLimits.select, hc, List.map_cons]
  rw [if_neg (by simp)]
  simp only [lookupIndices, hnone]

/-- Helper: Hermite position at offset 0 is the left endpoint
position. -/
theorem hermitePos_at_zero (dt p0 p1 v0 v1 : ℚ) :
    hermitePos dt 0 p0 p1 v0 v1 = p0 := by
  simp only [hermitePos]
  ring

/-- Helper: Hermite velocity at offset 0 is the left endpoint
velocity. -/
theorem hermiteVel_at_zero (dt p0 p1 v0 v1 : ℚ) :
    hermiteVel dt 0 p0 p1 v0 v1 = v0 := by
  simp only [hermiteVel]
  ring

/-- Helper: Hermite position at offset dt is the right endpoint
position. -/
theorem hermitePos_at_dt (dt p0 p1 v0 v1 : ℚ) (h : dt ≠ 0) :
    hermitePos dt dt p0 p1 v0 v1 = p1 := by
  simp only [hermitePos]
  field_simp
  ring

/-- Helper: Hermite velocity at offset dt is the right endpoint
velocity. -/
theorem hermiteVel_at_dt (dt p0 p1 v0 v1 : ℚ) (h : dt ≠ 0) :
    hermiteVel dt dt p0 p1 v0 v1 = v1 := by
  simp only [hermiteVel]
  field_simp
  ring

theorem map_hermitePos_zero (dt : ℚ) (l : List (ℚ × ℚ × ℚ × ℚ)) :
    l.map (fun q => hermitePos dt 0 q.1 q.2.1 q.2.2.1 q.2.2.2) =
    l.map (fun q => q.1) :=
  List.map_congr_left (fun q _ => hermitePos_at_zero dt q.1 q.2.1 q.2.2.1 q.2.2.2)

theorem map_hermiteVel_zero (dt : ℚ) (l : List (ℚ × ℚ × ℚ × ℚ)) :
    l.map (fun q => hermiteVel dt 0 q.1 q.2.1 q.2.2.1 q.2.2.2) =
    l.map (fun q => q.2.2.1) :=
  List.map_congr_left (fun q _ => hermiteVel_at_zero dt q.1 q.2.1 q.2.2.1 q.2.2.2)

theorem map_hermitePos_dt (dt : ℚ) (h : dt ≠ 0) (l : List (ℚ × ℚ × ℚ × ℚ)) :
    l.map (fun q => hermitePos dt dt q.1 q.2.1 q.2.2.1 q.2.2.2) =
    l.map (fun q => q.2.1) :=
  List.map_congr_left
    (fun q _ => hermitePos_at_dt dt q.1 q.2.1 q.2.2.1 q.2.2.2 h)

theorem map_hermiteVel_dt (dt : ℚ) (h : dt ≠ 0) (l : List (ℚ × ℚ × ℚ × ℚ)) :
    l.map (fun q => hermiteVel dt dt q.1 q.2.1 q.2.2.1 q.2.2.2) =
    l.map (fun q => q.2.2.2) :=
  List.map_congr_left
    (fun q _ => hermiteVel_at_dt dt q.1 q.2.1 q.2.2.1 q.2.2.2 h)

theorem zip4_map_fst {α β γ δ : Type} (as : List α) (bs : List β)
    (cs : List γ) (ds : List δ) (h1 : as.length = bs.length)
    (h2 : as.length = cs.length) (h3 : as.length = ds.length) :
    (zip4 as bs cs ds).map (fun q => q.1) = as := by
  induction as generalizing bs cs ds with
  | nil => cases bs <;> cases cs <;> cases ds <;> simp [zip4]
  | cons a as ih =>
    cases bs with
    | nil => simp at h1
    | cons b bs =>
      cases cs with
      | nil => simp at h2
      | cons c cs =>
        cases ds with
        | nil => simp at h3
        | cons d ds =>
          simp only [zip4, List.map_cons, List.cons.injEq, true_and]
          exact ih bs cs ds (by simpa using h1) (by simpa using h2)
            (by simpa using h3)

theorem zip4_map_snd {α β γ δ : Type} (as : List α) (bs : List β)
    (cs : List γ) (ds : List δ) (h1 : as.length = bs.length)
    (h2 : as.length = cs.length) (h3 : as.length = ds.length) :
    (zip4 as bs cs ds).map (fun q => q.2.1) = bs := by
  induction as generalizing bs cs ds with
  | nil =>
    cases bs with
    | nil => cases cs <;> cases ds <;> simp [zip4]
    | cons b bs => simp at h1
  | cons a as ih =>
    cases bs with
    | nil => simp at h1
    | cons b bs =>
      cases cs with
      | nil => simp at h2
      | cons c cs =>
        cases ds with
        | nil => simp at h3
        | cons d ds =>
          simp only [zip4, List.map_cons, List.cons.injEq, true_and]
          exact ih bs cs ds (by simpa using h1) (by simpa using h2)
            (by simpa using h3)

theorem zip4_map_thd {α β γ δ : Type} (as : List α) (bs : List β)
    (cs : List γ) (ds : List δ) (h1 : as.length = bs.length)
    (h2 : as.length = cs.length) (h3 : as.length = ds.length) :
    (zip4 as bs cs ds).map (fun q => q.2.2.1) = cs := by
  induction as generalizing bs cs ds with
  | nil =>
    cases cs with
    | nil => cases bs <;> cases ds <;> simp [zip4]
    | cons c cs => simp at h2
  | cons a as ih =>
    cases bs with
    | nil => simp at h1
    | cons b bs =>
      cases cs with
      | nil => simp at h2
      | cons c cs =>
        cases ds with
        | nil => simp at h3
        | cons d ds =>
          simp only [zip4, List.map_cons, List.cons.injEq, true_and]
          exact ih bs cs ds (by simpa using h1) (by simpa using h2)
            (by simpa using h3)

theorem zip4_map_fth {α β γ δ : Type} (as : List α) (bs : List β)
    (cs : List γ) (ds : List δ) (h1 : as.length = bs.length)
    (h2 : as.length = cs.length) (h3 : as.length = ds.length) :
    (zip4 as bs cs ds).map (fun q => q.2.2.2) = ds := by
  induction as generalizing bs cs ds with
  | nil =>
    cases ds with
    | nil => cases bs <;> cases cs <;> simp [zip4]
    | cons d ds => simp at h3
  | cons a as ih =>
    cases bs with
    | nil => simp at h1
    | cons b bs =>
      cases cs with
      | nil => simp at h2
      | cons c cs =>
        cases ds with
        | nil => simp at h3
        | cons d ds =>
          simp only [zip4, List.map_cons, List.cons.injEq, true_and]
          exact ih bs cs ds (by simpa using h1) (by simpa using h2)
            (by simpa using h3)

theorem zip4_length {α β γ δ : Type} (as : List α) (bs : List β)
    (cs : List γ) (ds : List δ) (h1 : as.length = bs.length)
    (h2 : as.length = cs.length) (h3 : as.length = ds.length) :
    (zip4 as bs cs ds).length = as.length := by
  induction as generalizing bs cs ds with
  | nil => cases bs <;> cases cs <;> cases ds <;> simp [zip4]
  | cons a as ih =>
    cases bs with
    | nil => simp at h1
    | cons b bs =>
      cases cs with
      | nil => simp at h2
      | cons c cs =>
        cases ds with
        | nil => simp at h3
        | cons d ds =>
          simp only [zip4, List.length_cons]
          exact congrArg (· + 1) (ih bs cs ds (by simpa using h1)
            (by simpa using h2) (by simpa using h3))

/-- Claim C4: under the interpolation preconditions (equal joint sets,
strictly later other point, both points carrying velocities, arrays
aligned to the joint set), `interpolate_cubic` evaluated at
`a.time_from_start` reproduces a's positions and velocities exactly, and
evaluated at `b.time_from_start` reproduces b's. -/
theorem interpolate_cubic_endpoints
    (a b : JointTrajectoryPoint) (va vb : JointValues)
    (hjs : a.joint_set = b.joint_set)
    (ht : a.time_from_start < b.time_from_start)
    (hva : a.velocities = some va) (hvb : b.velocities = some vb)
    (hlb : b.positions.values.length = a.positions.values.length)
    (hlva : va.values.length = a.positions.values.length)
    (hlvb : vb.values.length = a.positions.values.length) :
    a.interpolate_cubic b a.time_from_start =
      .ok ⟨a.time_from_start, ⟨a.joint_set, a.positions.values⟩,
           some ⟨a.joint_set, va.values⟩, none, none⟩ ∧
    a.interpolate_cubic b b.time_from_start =
      .ok ⟨b.time_from_start, ⟨a.joint_set, b.positions.values⟩,
           some ⟨a.joint_set, vb.values⟩, none, none⟩ := by
  have hne : ¬(a.joint_set ≠ b.joint_set) := by simp [hjs]
  have hmono : ¬(b.time_from_start ≤ a.time_from_start) := not_le.mpr ht
  have hδ1 : (1 : ℚ) ≤ ((b.time_from_start - a.time_from_start : ℤ) : ℚ) := by
    have h1 : (1 : ℤ) ≤ b.time_from_start - a.time_from_start := by omega
    exact_mod_cast h1
  have hδpos : (0 : ℚ) < ((b.time_from_start - a.time_from_start : ℤ) : ℚ) :=
    lt_of_lt_of_le one_pos hδ1
  have hdtpos : (0 : ℚ) <
      ((b.time_from_start - a.time_from_start : ℤ) : ℚ) / 1000000 :=
    div_pos hδpos (by norm_num)
  have hdeg : ¬(((b.time_from_start - a.time_from_start : ℤ) : ℚ) / 1000000 <
      1 / 1000000) :=
    not_lt.mpr ((div_le_div_right (by norm_num)).mpr hδ1)
  have hdtne : ((b.time_from_start - a.time_from_start : ℤ) : ℚ) / 1000000 ≠ 0 :=
    ne_of_gt hdtpos
  constructor
  · unfold JointTrajectoryPoint.interpolate_cubic
    rw [if_neg hne]
    simp only []
    rw [if_neg hmono, if_neg hdeg]
    simp only [hva, hvb]
    have hT0 : min (((b.time_from_start - a.time_from_start : ℤ) : ℚ) / 1000000)
        (max (((a.time_from_start - a.time_from_start : ℤ) : ℚ) / 1000000) 0)
        = 0 := by
      rw [sub_self, Int.cast_zero, zero_div, max_self]
      exact min_eq_right (le_of_lt hdtpos)
    rw [hT0, map_hermitePos_zero, map_hermiteVel_zero,
      zip4_map_fst _ _ _ _ hlb.symm hlva.symm hlvb.symm,
      zip4_map_thd _ _ _ _ hlb.symm hlva.symm hlvb.symm,
      zip4_length _ _ _ _ hlb.symm hlva.symm hlvb.symm, hlva,
      Nat.sub_self]
    simp
  · unfold JointTrajectoryPoint.interpolate_cubic
    rw [if_neg hne]
    simp only []
    rw [if_neg hmono, if_neg hdeg]
    simp only [hva, hvb]
    have hTdt : min (((b.time_from_start - a.time_from_start : ℤ) : ℚ) / 1000000)
        (max (((b.time_from_start - a.time_from_start : ℤ) : ℚ) / 1000000) 0)
        = ((b.time_from_start - a.time_from_start : ℤ) : ℚ) / 1000000 := by
      rw [max_eq_left (le_of_lt hdtpos), min_self]
    rw [hTdt, map_hermitePos_dt _ hdtne, map_hermiteVel_dt _ hdtne,
      zip4_map_snd _ _ _ _ hlb.symm hlva.symm hlvb.symm,
      zip4_map_fth _ _ _ _ hlb.symm hlva.symm hlvb.symm,
      zip4_length _ _ _ _ hlb.symm hlva.symm hlvb.symm, hlva,
      Nat.sub_self]
    simp

theorem interpolate_cubic_endpoints_witness :
    (⟨0, ⟨["j1"], [0]⟩, some ⟨["j1"], [1]⟩, none, none⟩ :
        JointTrajectoryPoint).interpolate_cubic
      ⟨1000000, ⟨["j1"], [1]⟩, some ⟨["j1"], [-1]⟩, none, none⟩ 0 =
      .ok ⟨0, ⟨["j1"], [0]⟩, some ⟨["j1"], [1]⟩, none, none⟩ ∧
    (⟨0, ⟨["j1"], [0]⟩, some ⟨["j1"], [1]⟩, none, none⟩ :
        JointTrajectoryPoint).interpolate_cubic
      ⟨1000000, ⟨["j1"], [1]⟩, some ⟨["j1"], [-1]⟩, none, none⟩ 1000000 =
      .ok ⟨1000000, ⟨["j1"], [1]⟩, some ⟨["j1"], [-1]⟩, none, none⟩ :=
  interpolate_cubic_endpoints
    ⟨0, ⟨["j1"], [0]⟩, some ⟨["j1"], [1]⟩, none, none⟩
    ⟨1000000, ⟨["j1"], [1]⟩, some ⟨["j1"], [-1]⟩, none, none⟩
    ⟨["j1"], [1]⟩ ⟨["j1"], [-1]⟩ rfl (by decide) rfl rfl rfl rfl rfl

/-- Claim C5: whenever `interpolate_cubic` returns a point, that point
carries no accelerations and no efforts, regardless of the inputs. -/
theorem interpolate_cubic_no_acc_eff
    (a b : JointTrajectoryPoint) (time : ℤ) (r : JointTrajectoryPoint)
    (h : a.interpolate_cubic b time = .ok r) :
    r.accelerations = none ∧ r.efforts = none := by
  by_cases hjs : a.joint_set ≠ b.joint_set
  · unfold JointTrajectoryPoint.interpolate_cubic at h
    rw [if_pos hjs] at h
    exact absurd h (by simp)
  · by_cases hmono : b.time_from_start ≤ a.time_from_start
    · unfold JointTrajectoryPoint.interpolate_cubic at h
      rw [if_neg hjs] at h
      simp only [] at h
      rw [if_pos hmono] at h
      exact absurd h (by simp)
    · have hδ1 : (1 : ℚ) ≤
          ((b.time_from_start - a.time_from_start : ℤ) : ℚ) := by
        have h1 : (1 : ℤ) ≤ b.time_from_start - a.time_from_start := by
          omega
        exact_mod_cast h1
      have hdeg : ¬(((b.time_from_start - a.time_from_start : ℤ) : ℚ) /
          1000000 < 1 / 1000000) :=
        not_lt.mpr ((div_le_div_right (by norm_num)).mpr hδ1)
      unfold JointTrajectoryPoint.interpolate_cubic at h
      rw [if_neg hjs] at h
      simp only [] at h
      rw [if_neg hmono, if_neg hdeg] at h
      rcases ha : a.velocities with _ | v0s
      · rw [ha] at h
        exact absurd h (by simp)
      · rcases hb : b.velocities with _ | v1s
        · rw [ha, hb] at h
          exact absurd h (by simp)
        · rw [ha, hb] at h
          simp only [Except.ok.injEq] at h
          subst h
          exact ⟨rfl, rfl⟩

theorem interpolate_cubic_no_acc_eff_witness :
    (⟨0, ⟨["j1"], [0]⟩, some ⟨["j1"], [1]⟩, none, none⟩ :
        JointTrajectoryPoint).interpolate_cubic
      ⟨1000000, ⟨["j1"], [1]⟩, some ⟨["j1"], [-1]⟩, none, none⟩ 0 =
      .ok ⟨0, ⟨["j1"], [0]⟩, some ⟨["j1"], [1]⟩, none, none⟩ ∧
    ((⟨0, ⟨["j1"], [0]⟩, some ⟨["j1"], [1]⟩, none, none⟩ :
        JointTrajectoryPoint).accelerations = none ∧
     (⟨0, ⟨["j1"], [0]⟩, some ⟨["j1"], [1]⟩, none, none⟩ :
        JointTrajectoryPoint).efforts = none) := by
  have h : (⟨0, ⟨["j1"], [0]⟩, some ⟨["j1"], [1]⟩, none, none⟩ :
        JointTrajectoryPoint).interpolate_cubic
      ⟨1000000, ⟨["j1"], [1]⟩, some ⟨["j1"], [-1]⟩, none, none⟩ 0 =
      .ok ⟨0, ⟨["j1"], [0]⟩, some ⟨["j1"], [1]⟩, none, none⟩ := by
    norm_num [JointTrajectoryPoint.interpolate_cubic,
      JointTrajectoryPoint.joint_set, zip4, hermitePos, hermiteVel,
      min_def, max_def]
  exact ⟨h, interpolate_cubic_no_acc_eff _ _ 0 _ h⟩

/-- Claim C6: under equal joint sets and a strictly later other point,
`interpolate_cubic` fails with the missing-velocity ValueError for every
query time as soon as either endpoint lacks velocities. -/
theorem interpolate_cubic_missing_velocity
    (a b : JointTrajectoryPoint) (time : ℤ)
    (hjs : a.joint_set = b.joint_set)
    (ht : a.time_from_start < b.time_from_start)
    (hv : a.velocities = none ∨ b.velocities = none) :
    a.interpolate_cubic b time = .error .missingVelocity := by
  have hne : ¬(a.joint_set ≠ b.joint_set) := by simp [hjs]
  have hmono : ¬(b.time_from_start ≤ a.time_from_start) := not_le.mpr ht
  have hδ1 : (1 : ℚ) ≤ ((b.time_from_start - a.time_from_start : ℤ) : ℚ) := by
    have h1 : (1 : ℤ) ≤ b.time_from_start - a.time_from_start := by omega
    exact_mod_cast h1
  have hdeg : ¬(((b.time_from_start - a.time_from_start : ℤ) : ℚ) / 1000000 <
      1 / 1000000) :=
    not_lt.mpr ((div_le_div_right (by norm_num)).mpr hδ1)
  unfold JointTrajectoryPoint.interpolate_cubic
  rw [if_neg hne]
  simp only []
  rw [if_neg hmono, if_neg hdeg]
  rcases hv with hv | hv
  · rw [hv]
  · rcases ha : a.velocities with _ | v0s
    · rfl
    · rw [hv]

theorem interpolate_cubic_missing_velocity_witness :
    (⟨0, ⟨["j1"], [0]⟩, none, none, none⟩ :
        JointTrajectoryPoint).interpolate_cubic
      ⟨1000000, ⟨["j1"], [1]⟩, some ⟨["j1"], [-1]⟩, none, none⟩ 5 =
      .error .missingVelocity :=
  interpolate_cubic_missing_velocity
    ⟨0, ⟨["j1"], [0]⟩, none, none, none⟩
    ⟨1000000, ⟨["j1"], [1]⟩, some ⟨["j1"], [-1]⟩, none, none⟩ 5
    rfl (by decide) (Or.inl rfl)

theorem select_single_string_raises_witness :
    (∀ n ∈ (JointLimits.mk ["j1", "j2"] [1, 2] [1, 2] [0, 0] [3, 3]).joint_set,
       1 < n.length) ∧
    "j1" ∈ (JointLimits.mk ["j1", "j2"] [1, 2] [1, 2] [0, 0] [3, 3]).joint_set ∧
    (JointLimits.mk ["j1", "j2"] [1, 2] [1, 2] [0, 0] [3, 3]).select
      (.str "j1") = .error "ValueError" :=
  ⟨by decide, by decide,
   select_single_string_raises
     (JointLimits.mk ["j1", "j2"] [1, 2] [1, 2] [0, 0] [3, 3]) "j1"
     (by decide) (by decide)⟩

end XamlaMotion
